import Mathlib

/-!
Verification development for the badge-photo-gen repository.

The TypeScript sources are shallowly embedded: JavaScript numbers are
modelled as rationals, strings as Lean strings (or their character
lists), thrown values as an explicit inductive type, and the
asynchronous batch loop as a pure state-passing recursion. Randomness
(the draws of Math.random) and the per-image generation outcomes are
passed in as explicit inputs.
-/

set_option maxRecDepth 20000

set_option allowUnsafeReducibility true
attribute [local semireducible] Rat.add Rat.mul Rat.sub Rat.inv Rat.ofScientific

namespace BadgePhotoGen

/-! ## Dimension utilities (src/utils/dimensions.ts) -/

/-- A Dimension record, `{ width, height }` with JS numbers as rationals. -/
structure Dimension where
  width : ℚ
  height : ℚ
deriving DecidableEq

/-- Model of the JavaScript `string.split(sep)` for a one-character
separator, on the character list of the string. -/
def splitOnChar (sep : Char) : List Char → List (List Char)
  | [] => [[]]
  | c :: cs =>
    let rest := splitOnChar sep cs
    if c = sep then [] :: rest
    else
      match rest with
      | r :: rs => (c :: r) :: rs
      | [] => [[c]]

/-- Value of a list of decimal digit characters. -/
def digitsVal (l : List Char) : ℕ :=
  l.foldl (fun a c => a * 10 + (c.toNat - 48)) 0

/-- Whitespace stripping done by the JavaScript `Number()` coercion. -/
def jsTrim (l : List Char) : List Char :=
  ((l.dropWhile Char.isWhitespace).reverse.dropWhile Char.isWhitespace).reverse

/-- Model of the JavaScript `Number(string)` coercion on the character
list of the string, restricted to the decimal forms relevant here:
surrounding whitespace is stripped, the empty string coerces to `0`, an
optional sign followed by decimal digits with an optional fractional
part yields that rational, and anything else is `NaN`, modelled as
`none` (hex, exponent and infinity forms are out of scope). -/
def jsNumber (l : List Char) : Option ℚ :=
  let t := jsTrim l
  if t.isEmpty then some 0
  else
    let neg : Bool := t.headD ' ' = '-'
    let signed : Bool := neg || (t.headD ' ' = '+')
    let rest := if signed then t.tail else t
    let sign : ℚ := if neg then -1 else 1
    match splitOnChar '.' rest with
    | [ip] =>
      if !ip.isEmpty && ip.all Char.isDigit then some (sign * (digitsVal ip : ℚ)) else none
    | [ip, fp] =>
      if (ip.all Char.isDigit && fp.all Char.isDigit) && (!ip.isEmpty || !fp.isEmpty) then
        some (sign * ((digitsVal ip : ℚ) + (digitsVal fp : ℚ) / (10 : ℚ) ^ fp.length))
      else none
    | _ => none

instance {ε α : Type} [DecidableEq ε] [DecidableEq α] : DecidableEq (Except ε α) := fun x y =>
  match x, y with
  | .ok a, .ok b =>
    if h : a = b then .isTrue (by rw [h]) else .isFalse (fun hh => h (Except.ok.inj hh))
  | .error a, .error b =>
    if h : a = b then .isTrue (by rw [h]) else .isFalse (fun hh => h (Except.error.inj hh))
  | .ok _, .error _ => .isFalse (fun hh => Except.noConfusion hh)
  | .error _, .ok _ => .isFalse (fun hh => Except.noConfusion hh)

/-- The error message thrown by `parseDimension` on malformed input. -/
def invalidDimensionMessage (sizeStr : String) : String :=
  "Invalid dimension format: " ++ sizeStr ++ ". Expected format: WxH (e.g., 900x800)"

/-- Embedding of `parseDimension` (src/utils/dimensions.ts): split the
string on the character x, coerce the first two parts with `Number`,
and throw when either is falsy (`undefined`, `NaN` or `0`). A thrown
`Error` is modelled as `Except.error` carrying the message. -/
def parseDimension (sizeStr : String) : Except String Dimension :=
  let parts := splitOnChar 'x' sizeStr.data
  let width := (parts[0]?).bind jsNumber
  let height := (parts[1]?).bind jsNumber
  if width.getD 0 = 0 ∨ height.getD 0 = 0 then
    Except.error (invalidDimensionMessage sizeStr)
  else
    Except.ok ⟨width.getD 0, height.getD 0⟩

/-- Spec-side predicate: the string matches `<positive-int>x<positive-int>`
exactly (two x-separated halves, each a nonempty digit string with
positive value). Used to compare the wording of the specification with
the behaviour of `parseDimension`. -/
def isPosIntStr (l : List Char) : Bool :=
  !l.isEmpty && l.all Char.isDigit && decide (0 < digitsVal l)

/-- Spec-side predicate for the full `WxH` format. -/
def matchesWxH (s : String) : Bool :=
  match splitOnChar 'x' s.data with
  | [w, h] => isPosIntStr w && isPosIntStr h
  | _ => false

/-- Absolute difference between the area of a candidate dimension and the
target area, as computed inside the `reduce` of `randomizeDimensions`. -/
def areaDiff (targetArea : ℚ) (d : Dimension) : ℚ :=
  |d.width * d.height - targetArea|

/-- The reducer of `randomizeDimensions`: keep `curr` only when its area
difference is strictly smaller than that of `prev`. -/
def pickCloser (targetArea : ℚ) (prev curr : Dimension) : Dimension :=
  if areaDiff targetArea curr < areaDiff targetArea prev then curr else prev

/-- The target area computed by `randomizeDimensions` from the parsed
bounds and the two Math.random draws `r1, r2 ∈ [0,1)`. -/
def targetAreaOf (mn mx : Dimension) (r1 r2 : ℚ) : ℚ :=
  ((⌊r1 * (mx.width - mn.width + 1)⌋ : ℚ) + mn.width) *
    ((⌊r2 * (mx.height - mn.height + 1)⌋ : ℚ) + mn.height)

/-- Embedding of `randomizeDimensions` (src/utils/dimensions.ts). The two
Math.random draws are passed explicitly as `r1` and `r2`. -/
def randomizeDimensions (minSize maxSize : String) (r1 r2 : ℚ)
    (supportedDimensions : List Dimension) : Except String Dimension :=
  match parseDimension minSize with
  | .error e => .error e
  | .ok mn =>
    match parseDimension maxSize with
    | .error e => .error e
    | .ok mx =>
      let randomWidth : ℚ := (⌊r1 * (mx.width - mn.width + 1)⌋ : ℚ) + mn.width
      let randomHeight : ℚ := (⌊r2 * (mx.height - mn.height + 1)⌋ : ℚ) + mn.height
      let portraitDimensions := supportedDimensions.filter fun d => decide (d.width ≤ d.height)
      match portraitDimensions with
      | [] => .ok (supportedDimensions.headD ⟨1024, 1024⟩)
      | p :: ps =>
        let targetArea := randomWidth * randomHeight
        .ok (ps.foldl (pickCloser targetArea) p)

/-! ## Retry executor (src/utils/retry.ts) -/

/-- Retry configuration, `{ maxAttempts, initialDelayMs, maxDelayMs,
backoffMultiplier }`. -/
structure RetryConfig where
  maxAttempts : ℕ
  initialDelayMs : ℚ
  maxDelayMs : ℚ
  backoffMultiplier : ℚ
deriving DecidableEq

/-- A JavaScript thrown value: an `Error` object carrying a message, a
plain thrown string, or the `undefined` value (reachable only through
the trailing `throw lastError!` when the loop body never ran). -/
inductive Thrown where
  | errorObj : String → Thrown
  | stringVal : String → Thrown
  | undefinedVal : Thrown
deriving DecidableEq

/-- The JavaScript `String(v)` conversion for the thrown values above. -/
def jsStringOf : Thrown → String
  | .errorObj m => "Error: " ++ m
  | .stringVal s => s
  | .undefinedVal => "undefined"

/-- Embedding of `error instanceof Error ? error : new Error(String(error))`
from retryWithBackoff: an `Error` instance passes through unchanged, any
other thrown value is wrapped in a fresh `Error` whose message is its
string conversion. -/
def coerceToError : Thrown → Thrown
  | .errorObj m => .errorObj m
  | v => .errorObj (jsStringOf v)

/-- Outcome of one attempt of the wrapped operation: a resolved value or
a rejection carrying the thrown value. -/
inductive Outcome (α : Type) where
  | ok : α → Outcome α
  | thrown : Thrown → Outcome α
deriving DecidableEq

/-- The attempt loop of `retryWithBackoff`. `fn a` is the outcome of the
operation on attempt number `a` (1-based), `remaining` counts the loop
iterations still permitted (`maxAttempts - attempt + 1` at every call),
and `currentDelay` is the mutable delay variable. The result records the
final outcome, the number of times the operation was invoked, and the
list of waits performed between attempts, in order. -/
def retryLoop {α : Type} (fn : ℕ → Outcome α) (maxAttempts : ℕ) :
    (attempt : ℕ) → (remaining : ℕ) → (currentDelay maxDelayMs backoffMultiplier : ℚ) →
    Outcome α × ℕ × List ℚ
  | _, 0, _, _, _ => (.thrown .undefinedVal, 0, [])
  | attempt, r + 1, currentDelay, maxDelayMs, backoffMultiplier =>
    match fn attempt with
    | .ok v => (.ok v, 1, [])
    | .thrown e =>
      let lastError := coerceToError e
      if attempt = maxAttempts then (.thrown lastError, 1, [])
      else
        let rest := retryLoop fn maxAttempts (attempt + 1)
          r (min (currentDelay * backoffMultiplier) maxDelayMs)
          maxDelayMs backoffMultiplier
        (rest.1, rest.2.1 + 1, currentDelay :: rest.2.2)

/-- Embedding of `retryWithBackoff` (src/utils/retry.ts): run the attempt
loop from attempt 1 with the configured initial delay. -/
def retryWithBackoff {α : Type} (fn : ℕ → Outcome α) (config : RetryConfig) :
    Outcome α × ℕ × List ℚ :=
  retryLoop fn config.maxAttempts 1 config.maxAttempts
    config.initialDelayMs config.maxDelayMs config.backoffMultiplier

/-- The delay sequence the specification describes: `initialDelayMs`,
then repeatedly multiply by `backoffMultiplier` and clamp to
`maxDelayMs` when preparing the next wait. -/
def delaySeq (config : RetryConfig) : ℕ → ℚ
  | 0 => config.initialDelayMs
  | n + 1 => min (delaySeq config n * config.backoffMultiplier) config.maxDelayMs

/-- The wait list emitted by `k` consecutive failed attempts when the
current delay variable holds `cur`. -/
def delaysFrom (maxDelayMs backoffMultiplier : ℚ) : (cur : ℚ) → ℕ → List ℚ
  | _, 0 => []
  | cur, k + 1 => cur :: delaysFrom maxDelayMs backoffMultiplier
      (min (cur * backoffMultiplier) maxDelayMs) k

/-! ## Budget gate (src/config/budget.ts) -/

/-- The budget section of the configuration file. -/
structure BudgetConfig where
  total : ℚ
  spent : ℚ
  warnThreshold : ℚ
deriving DecidableEq

/-- The defaults section of the configuration file. -/
structure DefaultSettings where
  count : ℕ
  style : String
  format : String
  outputDir : String
deriving DecidableEq

/-- The dimensions section of the configuration file. -/
structure DimensionConstraints where
  minWidth : ℚ
  minHeight : ℚ
  maxWidth : ℚ
  maxHeight : ℚ
  maintainPortrait : Bool
deriving DecidableEq

/-- The gender section of the configuration file. -/
structure GenderDistribution where
  maleRatio : ℚ
  femaleRatio : ℚ
deriving DecidableEq

/-- The full configuration record (src/types), as parsed from the YAML
configuration file. -/
structure Config where
  apiKey : String
  budget : BudgetConfig
  defaults : DefaultSettings
  dimensions : DimensionConstraints
  retry : RetryConfig
  gender : GenderDistribution
deriving DecidableEq

/-- Model of the JavaScript `number.toFixed(d)` for the exact rational
values produced here: the value is scaled by `10^d`, rounded half-up in
magnitude, and printed with a decimal point and exactly `d` fraction
digits (none when `d = 0`), with a leading minus sign for negative
values. -/
def toFixed (q : ℚ) (d : ℕ) : String :=
  let m : ℕ := (⌊|q| * (10 : ℚ) ^ d + 1 / 2⌋).toNat
  let ip : ℕ := m / 10 ^ d
  let fp : ℕ := m % 10 ^ d
  let fpStr := Nat.repr fp
  (if q < 0 then "-" else "") ++ Nat.repr ip ++
    (if d = 0 then "" else "." ++ (String.mk (List.replicate (d - fpStr.length) '0') ++ fpStr))

/-- The message built by `checkBudget` when the estimate exceeds the
remaining budget. -/
def exceededMessage (config : Config) (estimatedCost : ℚ) : String :=
  "Budget exceeded! Estimated cost ($" ++ toFixed estimatedCost 4 ++
    ") exceeds remaining budget ($" ++ toFixed (config.budget.total - config.budget.spent) 4 ++
    ").\n" ++
    "Total budget: $" ++ toFixed config.budget.total 4 ++
    " | Spent: $" ++ toFixed config.budget.spent 4 ++
    " | Remaining: $" ++ toFixed (config.budget.total - config.budget.spent) 4

/-- The message built by `checkBudget` when the post-generation
utilization reaches the warning threshold. -/
def warningMessage (config : Config) (estimatedCost : ℚ) : String :=
  "Warning: This generation will use " ++
    toFixed (((config.budget.spent + estimatedCost) / config.budget.total) * 100) 1 ++
    "% of your total budget.\n" ++
    "Total budget: $" ++ toFixed config.budget.total 4 ++
    " | Spent: $" ++ toFixed config.budget.spent 4 ++
    " | Remaining: $" ++ toFixed (config.budget.total - config.budget.spent) 4 ++ "\n" ++
    "Estimated cost: $" ++ toFixed estimatedCost 4 ++
    " | After generation: $" ++ toFixed (config.budget.spent + estimatedCost) 4

/-- The message built by `checkBudget` when the check passes below the
warning threshold. -/
def passedMessage (config : Config) (estimatedCost : ℚ) : String :=
  "Budget check passed. Estimated cost: $" ++ toFixed estimatedCost 4 ++
    " | Remaining after: $" ++
    toFixed (config.budget.total - config.budget.spent - estimatedCost) 4

/-- Result record of `checkBudget`, `{ allowed, message }`. -/
structure BudgetCheckResult where
  allowed : Bool
  message : String
deriving DecidableEq

/-- Embedding of `checkBudget` (src/config/budget.ts):
`remaining = total - spent`, `allowed = remaining >= estimatedCost`;
when not allowed the exceeded message is produced, otherwise the warning
message when `afterGenPercent >= warnThreshold * 100`, else the passed
message. -/
def checkBudget (config : Config) (estimatedCost : ℚ) : BudgetCheckResult :=
  if estimatedCost ≤ config.budget.total - config.budget.spent then
    if config.budget.warnThreshold * 100 ≤
        ((config.budget.spent + estimatedCost) / config.budget.total) * 100 then
      ⟨true, warningMessage config estimatedCost⟩
    else
      ⟨true, passedMessage config estimatedCost⟩
  else
    ⟨false, exceededMessage config estimatedCost⟩

/-- Embedding of `updateBudgetSpent` (src/config/budget.ts) at the level
of the parsed configuration value: the on-disk YAML round-trip
(read file, parse, mutate, stringify, write) is modelled as a pure
transformation of the parsed `Config`; the function adds `amountSpent`
to `budget.spent` and leaves every other field alone. -/
def updateBudgetSpent (config : Config) (amountSpent : ℚ) : Config :=
  { config with budget := { config.budget with spent := config.budget.spent + amountSpent } }

/-- The mock configuration builder used by the repository's budget unit
tests (src/config/budget.test.ts), used here to state the concrete
checkBudget examples. -/
def createMockConfig (total spent warnThreshold : ℚ) : Config :=
  { apiKey := "test-key"
    budget := ⟨total, spent, warnThreshold⟩
    defaults := ⟨10, "caricature", "png", "./output"⟩
    dimensions := ⟨512, 512, 1024, 1024, true⟩
    retry := ⟨3, 1000, 10000, 2⟩
    gender := ⟨1/2, 1/2⟩ }

/-- Substring containment (the `toContain` of the repository's tests). -/
def strContains (s sub : String) : Prop :=
  sub.data <:+: s.data

instance (s sub : String) : Decidable (strContains s sub) :=
  List.decidableInfix sub.data s.data

/-- String prefix, used to state which kind of message was produced. -/
def strStartsWith (s sub : String) : Prop :=
  sub.data <+: s.data

instance (s sub : String) : Decidable (strStartsWith s sub) :=
  inferInstanceAs (Decidable (sub.data <+: s.data))

/-! ## Batch orchestrator (src/generators/batch.ts) -/

/-- Gender of a generated image. -/
inductive Gender where
  | male
  | female
deriving DecidableEq

/-- Embedding of `Math.ceil(params.count / 2)` from generateBatch. -/
def maleCount (count : ℕ) : ℤ :=
  ⌈(count : ℚ) / 2⌉

/-- Embedding of `Math.floor(params.count / 2)` from generateBatch. -/
def femaleCount (count : ℕ) : ℤ :=
  ⌊(count : ℚ) / 2⌋

/-- Embedding of `i < maleCount ? male : female` from generateBatch. -/
def genderForIndex (count i : ℕ) : Gender :=
  if (i : ℤ) < maleCount count then .male else .female

/-- Inputs of one batch run, with the per-index generation outcomes
passed in as an oracle: `outcome i = true` when image `i` is generated,
saved and appended to `results`, and `false` when its retry-wrapped
generation (or any other step of its loop body) threw. -/
structure BatchEnv where
  spent : ℚ
  total : ℚ
  estimatedCost : ℚ
  count : ℕ
  outcome : ℕ → Bool

/-- The generation loop of `generateBatch` (STEP D). `remaining` is the
number of loop iterations left (`count - i`), `i` the image index and
`results` the length of the accumulated results list. Returns the final
results count and whether the loop was exited early by the running
budget check in the catch block. -/
def loopAux (env : BatchEnv) : (remaining i results : ℕ) → ℕ × Bool
  | 0, _, results => (results, false)
  | remaining + 1, i, results =>
    if env.outcome i then
      loopAux env remaining (i + 1) (results + 1)
    else
      if env.total ≤ env.spent + (results : ℚ) * (env.estimatedCost / (env.count : ℚ)) then
        (results, true)
      else
        loopAux env remaining (i + 1) results

/-- Result of a whole batch run: results count, whether the loop broke
on the running budget estimate, whether the manifest/budget finalization
steps were reached, the reported cost, the number of budget write-backs
and the budget.spent value persisted by them. -/
structure BatchRunResult where
  results : ℕ
  abortedByBudget : Bool
  manifestWritten : Bool
  costUsd : ℚ
  budgetWrites : ℕ
  finalSpent : ℚ
deriving DecidableEq

/-- Embedding of `generateBatch` (src/generators/batch.ts) after the
pre-flight budget gate: run the generation loop over indices
`0..count-1`, then unconditionally build the manifest (STEP E) with
`costUsd = results.length * (estimatedCost / count)` and call
`updateBudgetSpent` exactly once (STEP F) with that same amount. -/
def generateBatchRun (env : BatchEnv) : BatchRunResult :=
  let out := loopAux env env.count 0 0
  let actualCost := (out.1 : ℚ) * (env.estimatedCost / (env.count : ℚ))
  { results := out.1
    abortedByBudget := out.2
    manifestWritten := true
    costUsd := actualCost
    budgetWrites := 1
    finalSpent := env.spent + actualCost }

example : toFixed 5 4 = "5.0000" := by decide
example : toFixed 90 1 = "90.0" := by decide
example : toFixed (1/4) 4 = "0.2500" := by decide
example : (checkBudget (createMockConfig 10 8 (8/10)) 5).allowed = false := by decide
example : strContains (checkBudget (createMockConfig 10 8 (8/10)) 5).message "$2.0000" := by decide
example : strContains (checkBudget (createMockConfig 10 5 (8/10)) 4).message "90.0%" := by decide
example : retryWithBackoff (fun _ => (Outcome.thrown (Thrown.stringVal "string error") : Outcome ℕ))
    ⟨3, 50, 5000, 2⟩ = (.thrown (.errorObj "string error"), 3, [50, 100]) := by decide
example : maleCount 51 = 26 := by decide
example : femaleCount 51 = 25 := by decide

example : parseDimension "900x800" = Except.ok ⟨900, 800⟩ := by decide
example : parseDimension "" = Except.error (invalidDimensionMessage "") := by decide
example : parseDimension "1x2x3" = Except.ok ⟨1, 2⟩ := by decide
example : matchesWxH "1x2x3" = false := by decide
example : matchesWxH "900x800" = true := by decide
example : randomizeDimensions "100x100" "200x200" 0 0 [⟨1024, 1024⟩] =
    Except.ok ⟨1024, 1024⟩ := by decide

/-! ## Helper lemmas for the retry executor -/

lemma retryLoop_allFail {α : Type} (errf : ℕ → Thrown) (maxAttempts : ℕ) (M mult : ℚ) :
    ∀ (k attempt : ℕ) (cur : ℚ), attempt + k = maxAttempts →
      retryLoop (fun a => (Outcome.thrown (errf a) : Outcome α)) maxAttempts attempt (k + 1)
          cur M mult =
        (Outcome.thrown (coerceToError (errf maxAttempts)), k + 1, delaysFrom M mult cur k) := by
  intro k
  induction k with
  | zero =>
    intro attempt cur h
    have h1 : attempt = maxAttempts := by omega
    subst h1
    simp [retryLoop, delaysFrom]
  | succ k ih =>
    intro attempt cur h
    have h1 : ¬ attempt = maxAttempts := by omega
    have h2 := ih (attempt + 1) (min (cur * mult) M) (by omega)
    rw [retryLoop.eq_2]
    dsimp only
    rw [if_neg h1, h2]
    rfl

lemma retryLoop_failThenOk {α : Type} (v : α) (errf : ℕ → Thrown) (fn : ℕ → Outcome α)
    (maxAttempts k : ℕ) (M mult : ℚ) (hk : k < maxAttempts)
    (hf : ∀ a, 1 ≤ a → a ≤ k → fn a = Outcome.thrown (errf a))
    (hs : fn (k + 1) = Outcome.ok v) :
    ∀ (j attempt r : ℕ) (cur : ℚ), 1 ≤ attempt → attempt + j = k + 1 →
      attempt + r = maxAttempts + 1 →
      retryLoop fn maxAttempts attempt r cur M mult = (Outcome.ok v, j + 1, delaysFrom M mult cur j) := by
  intro j
  induction j with
  | zero =>
    intro attempt r cur h1 h2 h3
    have ha : attempt = k + 1 := by omega
    obtain ⟨r0, rfl⟩ : ∃ r0, r = r0 + 1 := ⟨r - 1, by omega⟩
    subst ha
    simp [retryLoop, hs, delaysFrom]
  | succ j ih =>
    intro attempt r cur h1 h2 h3
    have ha : attempt ≤ k := by omega
    obtain ⟨r0, rfl⟩ : ∃ r0, r = r0 + 1 := ⟨r - 1, by omega⟩
    have hne : ¬ attempt = maxAttempts := by omega
    have h4 := ih (attempt + 1) r0 (min (cur * mult) M) (by omega) (by omega) (by omega)
    rw [retryLoop.eq_2, hf attempt h1 ha]
    dsimp only
    rw [if_neg hne, h4]
    rfl

lemma delaysFrom_delaySeq (cfg : RetryConfig) :
    ∀ (k n : ℕ),
      delaysFrom cfg.maxDelayMs cfg.backoffMultiplier (delaySeq cfg n) k =
        (List.range k).map (fun i => delaySeq cfg (n + i)) := by
  intro k
  induction k with
  | zero => intro n; rfl
  | succ k ih =>
    intro n
    rw [List.range_succ_eq_map, List.map_cons, List.map_map]
    show delaySeq cfg n :: delaysFrom cfg.maxDelayMs cfg.backoffMultiplier
        (min (delaySeq cfg n * cfg.backoffMultiplier) cfg.maxDelayMs) k = _
    have h1 : min (delaySeq cfg n * cfg.backoffMultiplier) cfg.maxDelayMs =
        delaySeq cfg (n + 1) := rfl
    rw [h1, ih (n + 1)]
    refine congrArg₂ List.cons (by rw [Nat.add_zero]) ?_
    refine List.map_congr_left fun i _ => ?_
    show delaySeq cfg (n + 1 + i) = delaySeq cfg (n + (i + 1))
    congr 1
    omega

/-- C1: on an operation failing at every attempt, retryWithBackoff calls
the operation exactly maxAttempts times and rejects with the coercion of
the last thrown value: an `Error` instance passes through unchanged,
while a non-`Error` value (such as a plain string) is wrapped as
`new Error(String(value))`, preserving its message but not its type. -/
theorem retryWithBackoff_allFail_spec {α : Type} (errf : ℕ → Thrown) (cfg : RetryConfig)
    (h : 1 ≤ cfg.maxAttempts) :
    retryWithBackoff (fun a => (Outcome.thrown (errf a) : Outcome α)) cfg =
      (Outcome.thrown (coerceToError (errf cfg.maxAttempts)), cfg.maxAttempts,
        delaysFrom cfg.maxDelayMs cfg.backoffMultiplier cfg.initialDelayMs
          (cfg.maxAttempts - 1))
    ∧ (∀ m, errf cfg.maxAttempts = Thrown.errorObj m →
        coerceToError (errf cfg.maxAttempts) = Thrown.errorObj m) := by
  constructor
  · obtain ⟨k, hk⟩ : ∃ k, cfg.maxAttempts = k + 1 := ⟨cfg.maxAttempts - 1, by omega⟩
    rw [retryWithBackoff, hk]
    have h2 := retryLoop_allFail (α := α) errf cfg.maxAttempts cfg.maxDelayMs
      cfg.backoffMultiplier k 1 cfg.initialDelayMs (by omega)
    rw [hk] at h2
    rw [h2]
    simp
  · intro m hm
    rw [hm]
    rfl

/-- C1 witness. -/
theorem retryWithBackoff_allFail_witness :
    1 ≤ (⟨3, 100, 5000, 2⟩ : RetryConfig).maxAttempts ∧
      (retryWithBackoff (fun a => (Outcome.thrown
          ((fun _ => Thrown.stringVal "string error") a) : Outcome ℕ)) ⟨3, 100, 5000, 2⟩ =
        (Outcome.thrown (coerceToError (Thrown.stringVal "string error")), 3,
          delaysFrom 5000 2 100 2)
      ∧ (∀ m, Thrown.stringVal "string error" = Thrown.errorObj m →
          coerceToError (Thrown.stringVal "string error") = Thrown.errorObj m)) :=
  ⟨by decide,
    retryWithBackoff_allFail_spec (fun _ => Thrown.stringVal "string error")
      ⟨3, 100, 5000, 2⟩ (by decide)⟩

/-- C1 counterexample: with maxAttempts = 3 and an operation that always
throws the plain string "string error", the final rejection is a wrapped
`Error` object, not the original string value, so the thrown value does
not propagate as-is. -/
theorem retryWithBackoff_wrapsNonError_counterexample :
    (retryWithBackoff (fun _ => (Outcome.thrown (Thrown.stringVal "string error") : Outcome ℕ))
        ⟨3, 50, 5000, 2⟩).1 = Outcome.thrown (Thrown.errorObj "string error")
    ∧ (retryWithBackoff (fun _ => (Outcome.thrown (Thrown.stringVal "string error") : Outcome ℕ))
        ⟨3, 50, 5000, 2⟩).1 ≠ Outcome.thrown (Thrown.stringVal "string error") := by
  constructor
  · decide
  · decide

/-- C7: on an operation failing exactly k < maxAttempts times and then
succeeding, retryWithBackoff returns the success value, calls the
operation exactly k+1 times (attempt 1 immediately), and the observed
waits are delaySeq 0 .. delaySeq (k-1): the initial delay first, then
each subsequent wait equal to the previous one multiplied by the
backoff multiplier and clamped to maxDelayMs when the next wait is
prepared. -/
theorem retryWithBackoff_eventualSuccess_spec {α : Type} (v : α) (errf : ℕ → Thrown)
    (fn : ℕ → Outcome α) (cfg : RetryConfig) (k : ℕ) (hk : k < cfg.maxAttempts)
    (hf : ∀ a, 1 ≤ a → a ≤ k → fn a = Outcome.thrown (errf a))
    (hs : fn (k + 1) = Outcome.ok v) :
    retryWithBackoff fn cfg = (Outcome.ok v, k + 1, (List.range k).map (delaySeq cfg)) := by
  rw [retryWithBackoff]
  have h1 := retryLoop_failThenOk v errf fn cfg.maxAttempts k cfg.maxDelayMs
    cfg.backoffMultiplier hk hf hs k 1 cfg.maxAttempts cfg.initialDelayMs
    (by omega) (by omega) (by omega)
  rw [h1]
  have h2 : cfg.initialDelayMs = delaySeq cfg 0 := rfl
  rw [h2, delaysFrom_delaySeq cfg k 0]
  simp

/-- C7 witness. -/
theorem retryWithBackoff_eventualSuccess_witness :
    (1 < (⟨3, 100, 5000, 2⟩ : RetryConfig).maxAttempts
      ∧ (∀ a, 1 ≤ a → a ≤ 1 →
          (fun a => if a = 2 then (Outcome.ok 42 : Outcome ℕ)
            else Outcome.thrown (Thrown.errorObj "fail")) a =
          Outcome.thrown ((fun _ => Thrown.errorObj "fail") a))
      ∧ (fun a => if a = 2 then (Outcome.ok 42 : Outcome ℕ)
          else Outcome.thrown (Thrown.errorObj "fail")) (1 + 1) = Outcome.ok 42)
    ∧ retryWithBackoff
        (fun a => if a = 2 then (Outcome.ok 42 : Outcome ℕ)
          else Outcome.thrown (Thrown.errorObj "fail")) ⟨3, 100, 5000, 2⟩ =
      (Outcome.ok 42, 1 + 1, (List.range 1).map (delaySeq ⟨3, 100, 5000, 2⟩)) :=
  ⟨⟨by decide,
    fun a h1 h2 => by
      have ha : a = 1 := by omega
      subst ha
      rfl,
    rfl⟩,
    retryWithBackoff_eventualSuccess_spec 42 (fun _ => Thrown.errorObj "fail")
      (fun a => if a = 2 then Outcome.ok 42 else Outcome.thrown (Thrown.errorObj "fail"))
      ⟨3, 100, 5000, 2⟩ 1 (by decide)
      (fun a h1 h2 => by
        have ha : a = 1 := by omega
        subst ha
        rfl)
      rfl⟩

/-! ## Gender distribution, frame property of the budget write-back, and
the generation loop -/

lemma maleCount_eq (c : ℕ) : maleCount c = (((c + 1) / 2 : ℕ) : ℤ) := by
  have h1 : -((c : ℚ) / 2) = ((-(c : ℤ) : ℤ) : ℚ) / ((2 : ℕ) : ℚ) := by push_cast; ring
  have h2 : ⌈(c : ℚ) / 2⌉ = -⌊-((c : ℚ) / 2)⌋ := by rw [Int.floor_neg, neg_neg]
  rw [maleCount, h2, h1, Rat.floor_intCast_div_natCast]
  omega

lemma femaleCount_eq (c : ℕ) : femaleCount c = ((c / 2 : ℕ) : ℤ) := by
  have h1 : (c : ℚ) / 2 = (((c : ℤ) : ℤ) : ℚ) / ((2 : ℕ) : ℚ) := by push_cast; ring
  rw [femaleCount, h1, Rat.floor_intCast_div_natCast]
  omega

/-- C4: the orchestrator rounds the male count up and the female count
down (maleCount = ceil(count/2) = (count+1)/2, femaleCount =
floor(count/2) = count/2, summing to count), gender assignment is
positional (male exactly below maleCount), and count 50 splits 25/25
while count 51 splits 26 male / 25 female. -/
theorem genderDistribution_spec :
    (∀ count : ℕ,
      maleCount count = (((count + 1) / 2 : ℕ) : ℤ)
      ∧ femaleCount count = ((count / 2 : ℕ) : ℤ)
      ∧ maleCount count + femaleCount count = (count : ℤ)
      ∧ (∀ i : ℕ, genderForIndex count i = Gender.male ↔ (i : ℤ) < maleCount count))
    ∧ maleCount 50 = 25 ∧ femaleCount 50 = 25 ∧ maleCount 51 = 26 ∧ femaleCount 51 = 25 := by
  refine ⟨fun count => ⟨maleCount_eq count, femaleCount_eq count, ?_, fun i => ?_⟩,
    ?_, ?_, ?_, ?_⟩
  · rw [maleCount_eq, femaleCount_eq]
    omega
  · rw [genderForIndex]
    split
    · exact iff_of_true rfl (by assumption)
    · exact iff_of_false (by decide) (by assumption)
  · rw [show (50 : ℕ) = 50 from rfl, maleCount_eq]; rfl
  · rw [femaleCount_eq]; rfl
  · rw [maleCount_eq]; rfl
  · rw [femaleCount_eq]; rfl

/-- C8: the budget write-back adds exactly amountToAdd (negative values
included, unvalidated) to budget.spent and preserves every other field
of the configuration. -/
theorem updateBudgetSpent_frame_spec (config : Config) (amountToAdd : ℚ) :
    (updateBudgetSpent config amountToAdd).budget.spent = config.budget.spent + amountToAdd
    ∧ (updateBudgetSpent config amountToAdd).budget.total = config.budget.total
    ∧ (updateBudgetSpent config amountToAdd).budget.warnThreshold = config.budget.warnThreshold
    ∧ (updateBudgetSpent config amountToAdd).apiKey = config.apiKey
    ∧ (updateBudgetSpent config amountToAdd).defaults = config.defaults
    ∧ (updateBudgetSpent config amountToAdd).dimensions = config.dimensions
    ∧ (updateBudgetSpent config amountToAdd).retry = config.retry
    ∧ (updateBudgetSpent config amountToAdd).gender = config.gender :=
  ⟨rfl, rfl, rfl, rfl, rfl, rfl, rfl, rfl⟩

/-- C2: inside the generation loop, a per-image failure breaks out of
the loop if and only if the running estimate
spent + results * (estimatedCost / count) has reached the total at that
moment (otherwise the loop continues at the next index), and the run
always reaches the manifest/budget finalization once the loop ends. -/
theorem generateBatch_failureContinuation_spec (env : BatchEnv) :
    (∀ r i results, env.outcome i = false →
      loopAux env (r + 1) i results =
        if env.total ≤ env.spent + (results : ℚ) * (env.estimatedCost / (env.count : ℚ))
        then (results, true)
        else loopAux env r (i + 1) results)
    ∧ (generateBatchRun env).manifestWritten = true := by
  constructor
  · intro r i results h
    simp [loopAux, h]
  · rfl

/-- C2 witness. -/
theorem generateBatch_failureContinuation_witness :
    (⟨0, 10, 10, 2, fun _ => false⟩ : BatchEnv).outcome 0 = false
    ∧ loopAux ⟨0, 10, 10, 2, fun _ => false⟩ (1 + 1) 0 0 =
        (if (10 : ℚ) ≤ 0 + ((0 : ℕ) : ℚ) * ((10 : ℚ) / ((2 : ℕ) : ℚ))
          then (0, true)
          else loopAux ⟨0, 10, 10, 2, fun _ => false⟩ 1 (0 + 1) 0) :=
  ⟨rfl, (generateBatch_failureContinuation_spec ⟨0, 10, 10, 2, fun _ => false⟩).1 1 0 0 rfl⟩

/-- C9: every batch run that reaches finalization performs exactly one
budget write-back, of amount results * (estimatedCost / count); in
particular a run that generated zero images leaves the persisted
budget.spent unchanged. -/
theorem generateBatch_budgetWriteBack_spec (env : BatchEnv) (h : 0 < env.count) :
    (generateBatchRun env).budgetWrites = 1
    ∧ (generateBatchRun env).costUsd =
        ((generateBatchRun env).results : ℚ) * (env.estimatedCost / (env.count : ℚ))
    ∧ (generateBatchRun env).finalSpent = env.spent + (generateBatchRun env).costUsd
    ∧ ((generateBatchRun env).results = 0 →
        (generateBatchRun env).finalSpent = env.spent) := by
  refine ⟨rfl, rfl, rfl, fun h0 => ?_⟩
  have h1 : (generateBatchRun env).finalSpent =
      env.spent + ((generateBatchRun env).results : ℚ) * (env.estimatedCost / (env.count : ℚ)) :=
    rfl
  rw [h1, h0]
  push_cast
  ring

/-- C9 witness. -/
theorem generateBatch_budgetWriteBack_witness :
    0 < (⟨5, 10, 10, 1, fun _ => false⟩ : BatchEnv).count
    ∧ ((generateBatchRun ⟨5, 10, 10, 1, fun _ => false⟩).budgetWrites = 1
      ∧ (generateBatchRun ⟨5, 10, 10, 1, fun _ => false⟩).costUsd =
          ((generateBatchRun ⟨5, 10, 10, 1, fun _ => false⟩).results : ℚ) *
            ((10 : ℚ) / ((1 : ℕ) : ℚ))
      ∧ (generateBatchRun ⟨5, 10, 10, 1, fun _ => false⟩).finalSpent =
          5 + (generateBatchRun ⟨5, 10, 10, 1, fun _ => false⟩).costUsd
      ∧ ((generateBatchRun ⟨5, 10, 10, 1, fun _ => false⟩).results = 0 →
          (generateBatchRun ⟨5, 10, 10, 1, fun _ => false⟩).finalSpent = 5)) :=
  ⟨by decide, generateBatch_budgetWriteBack_spec ⟨5, 10, 10, 1, fun _ => false⟩ (by decide)⟩

/-- C10: the dimension selector is not constrained by the requested
min/max bounds: with bounds 100x100 to 200x200 and the single supported
dimension 1024x1024, the returned dimension is 1024x1024, whose width
and height lie strictly outside the requested ranges, because the
closest-area snapping considers only the supported list. -/
theorem randomizeDimensions_outsideBounds_spec :
    parseDimension "100x100" = Except.ok ⟨100, 100⟩
    ∧ parseDimension "200x200" = Except.ok ⟨200, 200⟩
    ∧ randomizeDimensions "100x100" "200x200" 0 0 [⟨1024, 1024⟩] = Except.ok ⟨1024, 1024⟩
    ∧ (200 : ℚ) < 1024 ∧ (100 : ℚ) ≤ 200 := by
  refine ⟨by decide, by decide, by decide, by decide, by decide⟩

/-! ## Helper lemmas for parseDimension -/

lemma isDigit_not_isWhitespace {c : Char} (h : c.isDigit = true) : c.isWhitespace = false := by
  have h1 : ¬ c = ' ' := fun he => by subst he; exact absurd h (by decide)
  have h2 : ¬ c = '\t' := fun he => by subst he; exact absurd h (by decide)
  have h3 : ¬ c = '\r' := fun he => by subst he; exact absurd h (by decide)
  have h4 : ¬ c = '\n' := fun he => by subst he; exact absurd h (by decide)
  simp [Char.isWhitespace, h1, h2, h3, h4]

lemma dropWhile_whitespace_of_digits {l : List Char} (h : l.all Char.isDigit = true) :
    l.dropWhile Char.isWhitespace = l := by
  cases l with
  | nil => rfl
  | cons c t =>
    have hc : c.isDigit = true := by
      simp only [List.all_cons, Bool.and_eq_true] at h
      exact h.1
    simp [List.dropWhile_cons, isDigit_not_isWhitespace hc]

lemma jsTrim_digits {l : List Char} (h : l.all Char.isDigit = true) : jsTrim l = l := by
  have hr : l.reverse.all Char.isDigit = true := by simpa [List.all_reverse] using h
  rw [jsTrim, dropWhile_whitespace_of_digits h, dropWhile_whitespace_of_digits hr,
    List.reverse_reverse]

lemma splitOnChar_of_forall_ne {sep : Char} :
    ∀ {l : List Char}, (∀ c ∈ l, c ≠ sep) → splitOnChar sep l = [l] := by
  intro l
  induction l with
  | nil => intro _; rfl
  | cons c t ih =>
    intro h
    have hc : ¬ c = sep := h c (List.mem_cons_self c t)
    have ht := ih fun d hd => h d (List.mem_cons_of_mem _ hd)
    simp only [splitOnChar, ht, if_neg hc]

lemma digits_ne_of_not_digit {l : List Char} (h : l.all Char.isDigit = true) {sep : Char}
    (hsep : sep.isDigit = false) : ∀ c ∈ l, c ≠ sep := by
  intro c hc he
  subst he
  simp only [List.all_eq_true] at h
  rw [h c hc] at hsep
  exact Bool.noConfusion hsep

lemma jsNumber_digits {l : List Char} (hne : l ≠ []) (h : l.all Char.isDigit = true) :
    jsNumber l = some ((digitsVal l : ℚ)) := by
  obtain ⟨c, t, rfl⟩ : ∃ c t, l = c :: t := by
    cases l with
    | nil => exact absurd rfl hne
    | cons c t => exact ⟨c, t, rfl⟩
  have hc : c.isDigit = true := by
    simp only [List.all_cons, Bool.and_eq_true] at h
    exact h.1
  have hcm : ¬ c = '-' := fun he => by subst he; exact absurd hc (by decide)
  have hcp : ¬ c = '+' := fun he => by subst he; exact absurd hc (by decide)
  have hsplit : splitOnChar '.' (c :: t) = [c :: t] :=
    splitOnChar_of_forall_ne (digits_ne_of_not_digit h (by decide))
  simp [jsNumber, jsTrim_digits h, hsplit, hcm, hcp, h]

/-- C5 (amended): parseDimension round-trips every string whose two
x-separated halves are positive-integer digit strings, returning the two
integers exactly; the malformed inputs of the specification (missing
width, missing height, no separator, non-numeric, empty) all fail with
the identical message naming the offending input; and every failure of
parseDimension carries exactly that message. The amendment: failure is
not equivalent to not matching <positive-int>x<positive-int>, because
extra x-separated parts beyond the first two are ignored (see the
counterexample). -/
theorem parseDimension_spec :
    (∀ (s : String) (a b : List Char),
      splitOnChar 'x' s.data = [a, b] → isPosIntStr a = true → isPosIntStr b = true →
      parseDimension s = Except.ok ⟨(digitsVal a : ℚ), (digitsVal b : ℚ)⟩)
    ∧ parseDimension "x800" = Except.error (invalidDimensionMessage "x800")
    ∧ parseDimension "900x" = Except.error (invalidDimensionMessage "900x")
    ∧ parseDimension "900800" = Except.error (invalidDimensionMessage "900800")
    ∧ parseDimension "abcxdef" = Except.error (invalidDimensionMessage "abcxdef")
    ∧ parseDimension "" = Except.error (invalidDimensionMessage "")
    ∧ (∀ s m, parseDimension s = Except.error m → m = invalidDimensionMessage s) := by
  refine ⟨?_, by decide, by decide, by decide, by decide, by decide, ?_⟩
  · intro s a b hsplit ha hb
    simp only [isPosIntStr, Bool.and_eq_true, Bool.not_eq_eq_eq_not, Bool.not_true,
      decide_eq_true_eq] at ha hb
    obtain ⟨⟨hane, hadig⟩, hapos⟩ := ha
    obtain ⟨⟨hbne, hbdig⟩, hbpos⟩ := hb
    have hane' : a ≠ [] := by
      cases a with
      | nil => exact absurd hane (by decide)
      | cons x xs => exact List.cons_ne_nil x xs
    have hbne' : b ≠ [] := by
      cases b with
      | nil => exact absurd hbne (by decide)
      | cons x xs => exact List.cons_ne_nil x xs
    have haz : ((digitsVal a : ℚ)) ≠ 0 := by
      exact_mod_cast Nat.pos_iff_ne_zero.mp hapos
    have hbz : ((digitsVal b : ℚ)) ≠ 0 := by
      exact_mod_cast Nat.pos_iff_ne_zero.mp hbpos
    rw [parseDimension]
    rw [hsplit]
    simp only [List.getElem?_cons_zero, List.getElem?_cons_succ, Option.some_bind,
      jsNumber_digits hane' hadig, jsNumber_digits hbne' hbdig, Option.getD_some]
    rw [if_neg (by exact not_or.mpr ⟨haz, hbz⟩)]
  · intro s m h
    rw [parseDimension] at h
    split at h
    · exact (Except.error.inj h).symm
    · exact Except.noConfusion h

/-- C5 witness. -/
theorem parseDimension_witness :
    (splitOnChar 'x' "900x800".data = ["900".data, "800".data]
      ∧ isPosIntStr "900".data = true ∧ isPosIntStr "800".data = true)
    ∧ parseDimension "900x800" =
        Except.ok ⟨(digitsVal "900".data : ℚ), (digitsVal "800".data : ℚ)⟩ :=
  ⟨⟨by decide, by decide, by decide⟩,
    parseDimension_spec.1 "900x800" "900".data "800".data (by decide) (by decide) (by decide)⟩

/-- C5 counterexample: the string 1x2x3 does not match
<positive-int>x<positive-int>, yet parseDimension succeeds on it
(returning 1x2 and ignoring the third part), so parseDimension does not
fail exactly when the format is not matched. -/
theorem parseDimension_extraParts_counterexample :
    matchesWxH "1x2x3" = false ∧ parseDimension "1x2x3" = Except.ok ⟨1, 2⟩ := by
  exact ⟨by decide, by decide⟩

/-! ## Helper lemmas for checkBudget -/

lemma str_data_append (a b : String) : (a ++ b).data = a.data ++ b.data := rfl

lemma strStartsWith_append_left {s t p : String} (h : strStartsWith s p) :
    strStartsWith (s ++ t) p := by
  rw [strStartsWith, str_data_append]
  exact h.trans (List.prefix_append s.data t.data)

lemma exceededMessage_startsWith (config : Config) (estimatedCost : ℚ) :
    strStartsWith (exceededMessage config estimatedCost) "Budget exceeded!" := by
  rw [exceededMessage]
  repeat apply strStartsWith_append_left
  decide

lemma warningMessage_startsWith (config : Config) (estimatedCost : ℚ) :
    strStartsWith (warningMessage config estimatedCost) "Warning" := by
  rw [warningMessage]
  repeat apply strStartsWith_append_left
  decide

/-- C3: checkBudget allows exactly when total - spent covers the
estimate; a disallowed check produces the exceeded-kind message and an
allowed check whose post-generation utilization reaches the warning
threshold produces the warning-kind message; concretely,
checkBudget(total 10, spent 8, estimated 5) is disallowed with a message
containing "Budget exceeded!", "$5.0000" and "$2.0000", and
checkBudget(total 10, spent 5, estimated 4, warnThreshold 0.8) is
allowed with a message containing "Warning" and "90.0%". -/
theorem checkBudget_spec (config : Config) (estimatedCost : ℚ) :
    ((checkBudget config estimatedCost).allowed = true ↔
      estimatedCost ≤ config.budget.total - config.budget.spent)
    ∧ ((checkBudget config estimatedCost).allowed = false →
        strStartsWith (checkBudget config estimatedCost).message "Budget exceeded!")
    ∧ ((checkBudget config estimatedCost).allowed = true →
        config.budget.warnThreshold ≤
          (config.budget.spent + estimatedCost) / config.budget.total →
        strStartsWith (checkBudget config estimatedCost).message "Warning")
    ∧ (checkBudget (createMockConfig 10 8 (8/10)) 5).allowed = false
    ∧ strContains (checkBudget (createMockConfig 10 8 (8/10)) 5).message "Budget exceeded!"
    ∧ strContains (checkBudget (createMockConfig 10 8 (8/10)) 5).message "$5.0000"
    ∧ strContains (checkBudget (createMockConfig 10 8 (8/10)) 5).message "$2.0000"
    ∧ (checkBudget (createMockConfig 10 5 (8/10)) 4).allowed = true
    ∧ strContains (checkBudget (createMockConfig 10 5 (8/10)) 4).message "Warning"
    ∧ strContains (checkBudget (createMockConfig 10 5 (8/10)) 4).message "90.0%" := by
  refine ⟨?_, ?_, ?_, by decide, by decide, by decide, by decide, by decide, by decide,
    by decide⟩
  · rw [checkBudget]
    split_ifs with h1 h2
    · simp [h1]
    · simp [h1]
    · simp [h1]
  · intro h
    rw [checkBudget] at h ⊢
    split_ifs at h ⊢ with h1
    exact exceededMessage_startsWith config estimatedCost
  · intro h hw
    rw [checkBudget] at h ⊢
    split_ifs at h ⊢ with h1 h2
    · exact warningMessage_startsWith config estimatedCost
    · exact absurd (mul_le_mul_of_nonneg_right hw (by norm_num : (0:ℚ) ≤ 100)) h2

/-- C3 witness. -/
theorem checkBudget_witness :
    ((checkBudget (createMockConfig 10 8 (8/10)) 5).allowed = false
      ∧ (checkBudget (createMockConfig 10 5 (8/10)) 4).allowed = true
      ∧ (createMockConfig 10 5 (8/10)).budget.warnThreshold ≤
          ((createMockConfig 10 5 (8/10)).budget.spent + 4) /
            (createMockConfig 10 5 (8/10)).budget.total)
    ∧ strStartsWith (checkBudget (createMockConfig 10 8 (8/10)) 5).message "Budget exceeded!"
    ∧ strStartsWith (checkBudget (createMockConfig 10 5 (8/10)) 4).message "Warning" :=
  ⟨⟨by decide, by decide, by decide⟩,
    (checkBudget_spec (createMockConfig 10 8 (8/10)) 5).2.1 (by decide),
    (checkBudget_spec (createMockConfig 10 5 (8/10)) 4).2.2.1 (by decide) (by decide)⟩

/-! ## Helper lemmas for the closest-area reduce of randomizeDimensions -/

lemma pickCloser_le_left (t : ℚ) (p c : Dimension) :
    areaDiff t (pickCloser t p c) ≤ areaDiff t p := by
  rw [pickCloser]
  split_ifs with h
  · exact le_of_lt h
  · exact le_refl _

lemma pickCloser_le_right (t : ℚ) (p c : Dimension) :
    areaDiff t (pickCloser t p c) ≤ areaDiff t c := by
  rw [pickCloser]
  split_ifs with h
  · exact le_refl _
  · exact le_of_not_lt h

lemma foldl_pickCloser_mem (t : ℚ) :
    ∀ (l : List Dimension) (p : Dimension), l.foldl (pickCloser t) p ∈ p :: l := by
  intro l
  induction l with
  | nil => intro p; exact List.mem_cons_self p []
  | cons c l ih =>
    intro p
    rw [List.foldl_cons]
    rcases List.mem_cons.mp (ih (pickCloser t p c)) with h1 | h1
    · rw [h1, pickCloser]
      split_ifs
      · exact List.mem_cons_of_mem _ (List.mem_cons_self c l)
      · exact List.mem_cons_self p (c :: l)
    · exact List.mem_cons_of_mem _ (List.mem_cons_of_mem _ h1)

lemma foldl_pickCloser_min (t : ℚ) :
    ∀ (l : List Dimension) (p : Dimension),
      ∀ d ∈ p :: l, areaDiff t (l.foldl (pickCloser t) p) ≤ areaDiff t d := by
  intro l
  induction l with
  | nil =>
    intro p d hd
    rcases List.mem_cons.mp hd with h1 | h1
    · rw [h1, List.foldl_nil]
    · exact absurd h1 (List.not_mem_nil d)
  | cons c l ih =>
    intro p d hd
    rw [List.foldl_cons]
    rcases List.mem_cons.mp hd with h1 | h1
    · rw [h1]
      exact (ih (pickCloser t p c) _ (List.mem_cons_self _ _)).trans (pickCloser_le_left t p c)
    · rcases List.mem_cons.mp h1 with h2 | h2
      · rw [h2]
        exact (ih (pickCloser t p c) _ (List.mem_cons_self _ _)).trans (pickCloser_le_right t p c)
      · exact ih (pickCloser t p c) d (List.mem_cons_of_mem _ h2)

lemma foldl_pickCloser_find (t : ℚ) :
    ∀ (l : List Dimension) (p : Dimension),
      (p :: l).find? (fun d => decide (areaDiff t d = areaDiff t (l.foldl (pickCloser t) p)))
        = some (l.foldl (pickCloser t) p) := by
  intro l
  induction l with
  | nil =>
    intro p
    rw [List.foldl_nil]
    exact List.find?_cons_of_pos _ (by simp)
  | cons c l ih =>
    intro p
    rw [List.foldl_cons]
    have hih := ih (pickCloser t p c)
    by_cases hc : areaDiff t c < areaDiff t p
    · have hpc : pickCloser t p c = c := by rw [pickCloser, if_pos hc]
      rw [hpc] at hih
      have hmin : areaDiff t (l.foldl (pickCloser t) c) ≤ areaDiff t c :=
        foldl_pickCloser_min t l c c (List.mem_cons_self c l)
      have hne : ¬ areaDiff t p = areaDiff t (l.foldl (pickCloser t) c) := by
        intro he
        linarith
      rw [hpc]
      rw [List.find?_cons_of_neg _ (by simp [hne])]
      exact hih
    · have hpc : pickCloser t p c = p := by rw [pickCloser, if_neg hc]
      rw [hpc] at hih
      rw [hpc]
      by_cases hp : areaDiff t p = areaDiff t (l.foldl (pickCloser t) p)
      · have h1 : l.foldl (pickCloser t) p = p := by
          rw [List.find?_cons_of_pos _ (by simp [hp])] at hih
          exact (Option.some.inj hih).symm
        rw [List.find?_cons_of_pos _ (by simp [hp]), h1]
      · have hcmin : areaDiff t (l.foldl (pickCloser t) p) ≤ areaDiff t p :=
          foldl_pickCloser_min t l p p (List.mem_cons_self p l)
        have hple : areaDiff t p ≤ areaDiff t c := le_of_not_lt hc
        have hcne : ¬ areaDiff t c = areaDiff t (l.foldl (pickCloser t) p) := by
          intro he
          exact hp (le_antisymm (by linarith) hcmin)
        rw [List.find?_cons_of_neg _ (by simp [hp])] at hih
        rw [List.find?_cons_of_neg _ (by simp [hp]), List.find?_cons_of_neg _ (by simp [hcne])]
        exact hih

/-- C6: whenever both bounds parse and the portrait-eligible subset of
the supported list is nonempty, randomizeDimensions returns a member of
the supported list with height at least width, namely the
portrait-eligible element whose area has the smallest absolute
difference from the random draw's area, ties resolved in favor of the
first element in iteration order (it is the first element of the
portrait list achieving its area difference). -/
theorem randomizeDimensions_portraitClosest_spec
    (minSize maxSize : String) (r1 r2 : ℚ) (supported : List Dimension)
    (mn mx p : Dimension) (ps : List Dimension)
    (hmin : parseDimension minSize = Except.ok mn)
    (hmax : parseDimension maxSize = Except.ok mx)
    (hfilter : supported.filter (fun d => decide (d.width ≤ d.height)) = p :: ps) :
    ∃ res, randomizeDimensions minSize maxSize r1 r2 supported = Except.ok res
      ∧ res ∈ supported
      ∧ res.width ≤ res.height
      ∧ (∀ d ∈ p :: ps,
          areaDiff (targetAreaOf mn mx r1 r2) res ≤ areaDiff (targetAreaOf mn mx r1 r2) d)
      ∧ (p :: ps).find? (fun d => decide (areaDiff (targetAreaOf mn mx r1 r2) d =
          areaDiff (targetAreaOf mn mx r1 r2) res)) = some res := by
  refine ⟨ps.foldl (pickCloser (targetAreaOf mn mx r1 r2)) p, ?_, ?_, ?_, ?_, ?_⟩
  · rw [randomizeDimensions, hmin, hmax]
    simp only [hfilter, targetAreaOf]
  · have h1 := foldl_pickCloser_mem (targetAreaOf mn mx r1 r2) ps p
    rw [← hfilter] at h1
    exact (List.mem_filter.mp h1).1
  · have h1 := foldl_pickCloser_mem (targetAreaOf mn mx r1 r2) ps p
    rw [← hfilter] at h1
    have h2 := (List.mem_filter.mp h1).2
    exact of_decide_eq_true h2
  · exact foldl_pickCloser_min (targetAreaOf mn mx r1 r2) ps p
  · exact foldl_pickCloser_find (targetAreaOf mn mx r1 r2) ps p

/-- C6 witness. -/
theorem randomizeDimensions_portraitClosest_witness :
    (parseDimension "100x100" = Except.ok ⟨100, 100⟩
      ∧ parseDimension "200x200" = Except.ok ⟨200, 200⟩
      ∧ ([⟨1024, 768⟩, ⟨512, 768⟩, ⟨1024, 1024⟩] : List Dimension).filter
          (fun d => decide (d.width ≤ d.height)) = ⟨512, 768⟩ :: [⟨1024, 1024⟩])
    ∧ ∃ res, randomizeDimensions "100x100" "200x200" 0 0
          [⟨1024, 768⟩, ⟨512, 768⟩, ⟨1024, 1024⟩] = Except.ok res
        ∧ res ∈ ([⟨1024, 768⟩, ⟨512, 768⟩, ⟨1024, 1024⟩] : List Dimension)
        ∧ res.width ≤ res.height
        ∧ (∀ d ∈ (⟨512, 768⟩ : Dimension) :: [⟨1024, 1024⟩],
            areaDiff (targetAreaOf ⟨100, 100⟩ ⟨200, 200⟩ 0 0) res ≤
              areaDiff (targetAreaOf ⟨100, 100⟩ ⟨200, 200⟩ 0 0) d)
        ∧ ((⟨512, 768⟩ : Dimension) :: [⟨1024, 1024⟩]).find?
            (fun d => decide (areaDiff (targetAreaOf ⟨100, 100⟩ ⟨200, 200⟩ 0 0) d =
              areaDiff (targetAreaOf ⟨100, 100⟩ ⟨200, 200⟩ 0 0) res)) = some res :=
  ⟨⟨by decide, by decide, by decide⟩,
    randomizeDimensions_portraitClosest_spec "100x100" "200x200" 0 0
      [⟨1024, 768⟩, ⟨512, 768⟩, ⟨1024, 1024⟩] ⟨100, 100⟩ ⟨200, 200⟩ ⟨512, 768⟩
      [⟨1024, 1024⟩] (by decide) (by decide) (by decide)⟩

end BadgePhotoGen
